import Mathlib

/-!
Shallow embedding of the whisper round-robin-database storage engine
(crate root `src/lib.rs`, file lifecycle `src/whisper/file/mod.rs`).

The repository ships only the `WhisperFile` lifecycle module; the `header`,
`archive`, `schema` and `point` modules are referenced but their sources are
not present, so those definitions are modelled from the specification
(each such definition carries a doc comment starting `Modelled from the
spec:`).  `WhisperFile::new`, `WhisperFile::open`, `WhisperFile::open_mmap`
and `WhisperFile::write` are translated from `src/whisper/file/mod.rs`
itself.

Machine integers: `u32` values are `Nat` with explicit `% 2 ^ 32` at the
points where Rust performs `u32` arithmetic or an `as u32` cast.  The
big-endian byte encoding reduces each byte modulo 256, exactly as
`byteorder::BigEndian::write_u32` does for the 32-bit value it is given.
`f32` / `f64` fields are carried as their raw bit patterns (`Nat`); an
IEEE-754 binary32 decoder into `ℚ` interprets the `x_files_factor` bits.
A Rust panic (`unwrap`, out-of-bounds index, slice read past the end) is
modelled as `Option.none`; an `io::Result` error return as `Except.error`.
-/

namespace Whisper

/-- Big-endian 4-byte encoding of a `u32` value, as written by
`byteorder::BigEndian::write_u32`.  Each byte is reduced mod 256, so the
encoding depends only on `n % 2 ^ 32`. -/
def be32 (n : Nat) : List Nat :=
  [n / 2 ^ 24 % 256, n / 2 ^ 16 % 256, n / 2 ^ 8 % 256, n % 256]

/-- Big-endian 8-byte encoding of a `u64` value (point values are stored as
the raw bit pattern of an `f64`). -/
def be64 (n : Nat) : List Nat :=
  [n / 2 ^ 56 % 256, n / 2 ^ 48 % 256, n / 2 ^ 40 % 256, n / 2 ^ 32 % 256,
   n / 2 ^ 24 % 256, n / 2 ^ 16 % 256, n / 2 ^ 8 % 256, n % 256]

/-- Read one big-endian `u32` from the front of a byte stream, returning the
value and the rest of the stream; `none` models the Rust panic on reading
past the end of the slice. -/
def readU32 : List Nat → Option (Nat × List Nat)
  | b0 :: b1 :: b2 :: b3 :: rest =>
      some (b0 * 2 ^ 24 + b1 * 2 ^ 16 + b2 * 2 ^ 8 + b3, rest)
  | _ => none

/-- Read the big-endian `u32` stored at byte offset `off` of `bs`. -/
def readBE32At (bs : List Nat) (off : Nat) : Option Nat :=
  (readU32 (bs.drop off)).map Prod.fst

/-- IEEE-754 binary32 bit pattern of `0.5f32`, the `xff` literal that
`WhisperFile::new` passes to `Header::new` and serializes with
`write_f32::<BigEndian>`. -/
def f32HalfBits : Nat := 0x3F000000

/-- Decode an IEEE-754 binary32 bit pattern into an exact rational
(`none` for the infinity/NaN exponent). -/
def decodeF32 (b : Nat) : Option ℚ :=
  let s : Nat := b / 2 ^ 31 % 2
  let e : Nat := b / 2 ^ 23 % 2 ^ 8
  let f : Nat := b % 2 ^ 23
  if e = 2 ^ 8 - 1 then none
  else
    let mag : ℚ :=
      if e = 0 then (f : ℚ) * (2 : ℚ) ^ (-(149 : ℤ))
      else ((2 ^ 23 + f : Nat) : ℚ) * (2 : ℚ) ^ ((e : ℤ) - 150)
    some (if s = 1 then -mag else mag)

/-- Modelled from the spec: `POINT_SIZE = 12` bytes per stored point
(4-byte timestamp + 8-byte float); `whisper::point` is not under `src/`. -/
def POINT_SIZE : Nat := 12

/-- `ARCHIVE_INFO_SIZE`, the 12 bytes of one archive descriptor
(offset, precision, points), imported by `mod.rs` from the missing
`archive` module; value fixed by the on-disk format table. -/
def ARCHIVE_INFO_SIZE : Nat := 12

/-- Modelled from the spec: `Point = {timestamp: u32 seconds, value: f64}`;
`whisper::Point` is not under `src/`.  The value is carried as its raw
64-bit pattern since no claim computes on float values. -/
structure Point where
  timestamp : Nat
  value : Nat
  deriving Repr, DecidableEq

/-- Modelled from the spec: `RetentionPolicy = {precision: u32 > 0,
points: u32 > 0}`; `whisper::Schema`'s policy type is not under `src/`. -/
structure RetentionPolicy where
  precision : Nat
  points : Nat
  deriving Repr, DecidableEq

/-- Modelled from the spec: `retention_seconds = precision * points`. -/
def RetentionPolicy.retention (rp : RetentionPolicy) : Nat :=
  rp.precision * rp.points

/-- Modelled from the spec: `size_on_disk = points * POINT_SIZE`. -/
def RetentionPolicy.size_on_disk (rp : RetentionPolicy) : Nat :=
  rp.points * POINT_SIZE

/-- Modelled from the spec: a Schema is the ordered list of retention
policies, finest precision first; `whisper::Schema` is not under `src/`. -/
structure Schema where
  retention_policies : List RetentionPolicy
  deriving Repr, DecidableEq

/-- Modelled from the spec: `max_retention()` is the retention of the
coarsest (last) archive. -/
def Schema.max_retention (s : Schema) : Nat :=
  match s.retention_policies.getLast? with
  | some rp => rp.retention
  | none => 0

/-- Sum of the on-disk sizes of a list of retention policies. -/
def sumSizes (ps : List RetentionPolicy) : Nat :=
  (ps.map RetentionPolicy.size_on_disk).sum

/-- Modelled from the spec: `Header::archives_start(N)` — the header
occupies `16 + 12 * N` bytes, where the first archive region begins;
`header.rs` is not under `src/`. -/
def Header.archives_start (n : Nat) : Nat :=
  16 + ARCHIVE_INFO_SIZE * n

/-- Modelled from the spec: `size_on_disk()` = header size plus the sum of
each archive's `size_on_disk`. -/
def Schema.size_on_disk (s : Schema) : Nat :=
  Header.archives_start s.retention_policies.length + sumSizes s.retention_policies

/-- Modelled from the spec (§3 invariants): well-formed schema — non-empty,
precisions strictly increasing, retentions strictly increasing, each
coarser precision an exact multiple of the next finer one, and every field
a positive `u32`. -/
def Schema.WellFormed (s : Schema) : Prop :=
  s.retention_policies ≠ [] ∧
  (∀ p ∈ s.retention_policies.zip s.retention_policies.tail,
      (p : RetentionPolicy × RetentionPolicy).1.precision < p.2.precision ∧
        p.1.retention < p.2.retention ∧ p.2.precision % p.1.precision = 0) ∧
  ∀ rp ∈ s.retention_policies,
    0 < rp.precision ∧ 0 < rp.points ∧ rp.precision < 2 ^ 32 ∧ rp.points < 2 ^ 32

instance (s : Schema) : Decidable s.WellFormed :=
  inferInstanceAs (Decidable (_ ≠ [] ∧ (∀ p ∈ _, _ ∧ _ ∧ _) ∧ ∀ rp ∈ _, _ ∧ _ ∧ _ ∧ _))

/-- Aggregation types of the on-disk format table
(1=Average, 2=Sum, 3=Last, 4=Max, 5=Min, 0=Unknown); the enum lives in the
missing `header` module and is modelled from the spec. -/
inductive AggregationType where
  | Average | Sum | Last | Max | Min | Unknown
  deriving Repr, DecidableEq

/-- Modelled from the spec: the format-table numbering of aggregation
types. -/
def AggregationType.toU32 : AggregationType → Nat
  | .Average => 1
  | .Sum => 2
  | .Last => 3
  | .Max => 4
  | .Min => 5
  | .Unknown => 0

/-- Modelled from the spec: decode a format-table aggregation id; ids the
table does not list fall back to `Unknown`. -/
def AggregationType.ofU32 (n : Nat) : AggregationType :=
  if n = 1 then .Average
  else if n = 2 then .Sum
  else if n = 3 then .Last
  else if n = 4 then .Max
  else if n = 5 then .Min
  else .Unknown

/-- One parsed archive descriptor `{offset, precision, points}` of the
header's descriptor table. -/
structure ArchiveInfo where
  offset : Nat
  precision : Nat
  points : Nat
  deriving Repr, DecidableEq

/-- Modelled from the spec: `Header = {aggregation_type, max_retention,
x_files_factor, archive_infos}`; `header.rs` is not under `src/`.  The
`x_files_factor` is carried as its raw `f32` bit pattern. -/
structure Header where
  aggregation_type : AggregationType
  max_retention : Nat
  x_files_factor_bits : Nat
  archive_infos : List ArchiveInfo
  deriving Repr, DecidableEq

/-- Read `n` archive descriptors, 12 bytes each, from the front of a byte
stream; `none` models the Rust panic on a slice shorter than the header
claims. -/
def readInfos : List Nat → Nat → Option (List ArchiveInfo)
  | _, 0 => some []
  | bs, n + 1 => do
      let (o, r1) ← readU32 bs
      let (p, r2) ← readU32 r1
      let (q, r3) ← readU32 r2
      let rest ← readInfos r3 n
      some (⟨o, p, q⟩ :: rest)

/-- Modelled from the spec: `Header::new_from_slice` reads the 16-byte
preamble and then `archive_count` descriptors, all big-endian, performing
no consistency validation; `header.rs` is not under `src/`. -/
def Header.new_from_slice (bs : List Nat) : Option Header := do
  let (a, r1) ← readU32 bs
  let (m, r2) ← readU32 r1
  let (x, r3) ← readU32 r2
  let (n, r4) ← readU32 r3
  let infos ← readInfos r4 n
  some ⟨AggregationType.ofU32 a, m, x, infos⟩

/-- Modelled from the spec: an Archive is `{precision, points, offset}`
plus its byte region, the slice of the mapping from `offset` to
`offset + points * 12`; `archive.rs` is not under `src/`. -/
structure Archive where
  seconds_per_point : Nat
  points : Nat
  offset : Nat
  region : List Nat
  deriving Repr, DecidableEq

/-- Modelled from the spec: an archive's byte size is `points * POINT_SIZE`
(the test suite asserts `size() = 60` for 5 points). -/
def Archive.size (a : Archive) : Nat :=
  a.points * POINT_SIZE

/-- Modelled from the spec: the archive's total retention window. -/
def Archive.retention (a : Archive) : Nat :=
  a.seconds_per_point * a.points

/-- Modelled from the spec: `Header::mmap_to_archives` turns each parsed
descriptor into an archive view of the mapping from `offset` to
`offset + points * 12`; `header.rs` is not under `src/`. -/
def Header.mmap_to_archives (h : Header) (bytes : List Nat) : List Archive :=
  h.archive_infos.map fun i =>
    ⟨i.precision, i.points, i.offset, (bytes.drop i.offset).take (i.points * POINT_SIZE)⟩

/-- Outcome of one archive-level write per the write algorithm: the point
is either accepted into a slot or rejected as too old. -/
inductive WriteOutcome where
  | accepted | tooOld
  deriving Repr, DecidableEq

/-- The timestamp stored in slot 0 of an archive region (big-endian `u32`
at byte 0); `0` is the sentinel for "never written". -/
def Archive.slot0Timestamp (a : Archive) : Nat :=
  ((readU32 a.region).map Prod.fst).getD 0

/-- Overwrite the 12 bytes of slot `slot` of a region with
`{aligned timestamp, value bits}`. -/
def writeSlot (region : List Nat) (slot : Nat) (ts : Nat) (value : Nat) : List Nat :=
  region.take (slot * POINT_SIZE) ++ be32 ts ++ be64 value ++
    region.drop (slot * POINT_SIZE + POINT_SIZE)

/-- Modelled from the spec: the single-archive steps of `Archive::write`
(`archive.rs` is not under `src/`): reject a point older than
`now - retention_seconds` with `PointTooOld`; otherwise align the
timestamp down to a multiple of `precision`, derive the base interval from
slot 0 (an empty archive is established at slot 0), and unconditionally
overwrite slot `((aligned - base) / precision) % points` with the aligned
timestamp and the value.  Propagation into a coarser neighbour (spec step
5) acts on a different archive's region and is outside the single-archive
state modelled here. -/
def Archive.write (now : Nat) (a : Archive) (p : Point) : WriteOutcome × Archive :=
  if p.timestamp + a.retention < now then (.tooOld, a)
  else
    let aligned := p.timestamp - p.timestamp % a.seconds_per_point
    let base := a.slot0Timestamp
    let slot := if base = 0 then 0 else (aligned - base) / a.seconds_per_point % a.points
    (.accepted, { a with region := writeSlot a.region slot aligned p.value })

/-- The runtime `WhisperFile` value: a parsed header and the archive views
(from `src/whisper/file/mod.rs`; the `path` field carries no behaviour the
claims touch and is omitted). -/
structure WhisperFile where
  header : Header
  archives : List Archive
  deriving Repr, DecidableEq

/-- `WhisperFile::open_mmap` (from `src/whisper/file/mod.rs`): parse the
header from the mapped bytes and build the archive views; `none` models
the panic when parsing reads past the end of the mapping. -/
def WhisperFile.open_mmap (bytes : List Nat) : Option WhisperFile :=
  (Header.new_from_slice bytes).map fun h => ⟨h, h.mmap_to_archives bytes⟩

/-- `WhisperFile::open` (from `src/whisper/file/mod.rs`): `Mmap::open_path
(..).unwrap()` then `open_mmap`.  The argument is the result of the mmap
attempt; `none` in models the `unwrap` panic — the function's Rust return
type `WhisperFile` has no error variant. -/
def WhisperFile.openFile (mmapResult : Option (List Nat)) : Option WhisperFile :=
  match mmapResult with
  | none => none
  | some bytes => WhisperFile.open_mmap bytes

/-- `ftruncate` semantics on the modelled byte content: shrink to `n`
bytes, or extend with zero bytes. -/
def resize (old : List Nat) (n : Nat) : List Nat :=
  old.take n ++ List.replicate (n - old.length) 0

/-- The archive-descriptor rows as `WhisperFile::new`'s loop emits them:
`archive_offset` starts at `Header::archives_start(N)` (cast `as u32`) and
advances by `retention_policy.size_on_disk()` in `u32` arithmetic. -/
def rows : List RetentionPolicy → Nat → List ArchiveInfo
  | [], _ => []
  | rp :: rest, off =>
      ⟨off, rp.precision, rp.points⟩ :: rows rest ((off + rp.size_on_disk) % 2 ^ 32)

/-- The descriptor-table bytes emitted by `WhisperFile::new`'s loop:
for each policy, big-endian `offset`, `precision`, `points`. -/
def descBytes : List RetentionPolicy → Nat → List Nat
  | [], _ => []
  | rp :: rest, off =>
      be32 off ++ be32 rp.precision ++ be32 rp.points ++
        descBytes rest ((off + rp.size_on_disk) % 2 ^ 32)

/-- The 16-byte preamble `WhisperFile::new` writes: aggregation type
`Unknown`, the schema's max retention, `x_files_factor = 0.5`, and the
archive count, each as a big-endian 32-bit field. -/
def headerPreambleBytes (s : Schema) : List Nat :=
  be32 (AggregationType.toU32 .Unknown) ++ be32 s.max_retention ++
    be32 f32HalfBits ++ be32 s.retention_policies.length

/-- The file content after a successful `WhisperFile::new` on a file whose
previous content was `old`: the file is resized (`ftruncate`) to
`schema.size_on_disk()`, then exactly the preamble and descriptor table
are written through the write path from offset 0; all later bytes of the
resized file are untouched. -/
def WhisperFile.newBytes (old : List Nat) (s : Schema) : List Nat :=
  let hdr := headerPreambleBytes s ++
    descBytes s.retention_policies (Header.archives_start s.retention_policies.length % 2 ^ 32)
  hdr ++ (resize old s.size_on_disk).drop hdr.length

/-- The `io::Result` error of `Error::last_os_error()` surfaced by
`WhisperFile::new` when `ftruncate` fails. -/
inductive IoError where
  | lastOsError
  deriving Repr, DecidableEq

/-- `WhisperFile::new` (from `src/whisper/file/mod.rs`): open/create the
file, `ftruncate` it to `schema.size_on_disk()` — returning
`Error::last_os_error()` if the return value is nonzero — then write the
header preamble and descriptor table and reopen through `open_mmap`.
`ftruncateRet` is the `ftruncate` return value; on success the result
carries the final file bytes and the constructed `WhisperFile`
(`none` models the `Mmap::open(..).unwrap()` / parse panic). -/
def WhisperFile.new (old : List Nat) (s : Schema) (ftruncateRet : Int) :
    Except IoError (Option (List Nat × WhisperFile)) :=
  if ftruncateRet ≠ 0 then .error .lastOsError
  else .ok ((WhisperFile.open_mmap (WhisperFile.newBytes old s)).map
    fun wf => (WhisperFile.newBytes old s, wf))

/-- `WhisperFile::write` (from `src/whisper/file/mod.rs`):
`self.archives[0].write(&point)` — an unguarded index into the archive
list followed by the first archive's write; `none` models the index panic
on an empty archive list.  The archive write's outcome is discarded by the
trailing semicolon. -/
def WhisperFile.write (now : Nat) (f : WhisperFile) (p : Point) : Option WhisperFile :=
  match f.archives with
  | [] => none
  | a :: rest => some { f with archives := (Archive.write now a p).2 :: rest }

/-- The value `WhisperFile::write` returns to its caller: the Rust
signature is `pub fn write(&mut self, point: &Point)` — plain unit
whenever the call does not panic. -/
def WhisperFile.writeReturn (now : Nat) (f : WhisperFile) (p : Point) : Option Unit :=
  (WhisperFile.write now f p).map fun _ => ()

/-- The 88-byte `SAMPLE_FILE` literal of the test module
(`whisper-create.py blah.wsp 60:5`): aggregation id 1, max retention 300,
x_files_factor bits 0x3F000000, one archive descriptor
`{offset 28, precision 60, points 5}`, then 60 bytes of archive data. -/
def sampleFile : List Nat :=
  [0x00, 0x00, 0x00, 0x01,
   0x00, 0x00, 0x01, 0x2C,
   0x3F, 0x00, 0x00, 0x00,
   0x00, 0x00, 0x00, 0x01,
   0x00, 0x00, 0x00, 0x1C,
   0x00, 0x00, 0x00, 0x3C,
   0x00, 0x00, 0x00, 0x05,
   0x55, 0xD9, 0x33, 0xE8, 0x40, 0x59, 0x00, 0x00,
   0x00, 0x00, 0x00, 0x00, 0x00, 0x00, 0x00, 0x00,
   0x00, 0x00, 0x00, 0x00, 0x00, 0x00, 0x00, 0x00,
   0x00, 0x00, 0x00, 0x00, 0x00, 0x00, 0x00, 0x00,
   0x00, 0x00, 0x00, 0x00, 0x00, 0x00, 0x00, 0x00,
   0x00, 0x00, 0x00, 0x00, 0x00, 0x00, 0x00, 0x00,
   0x00, 0x00, 0x00, 0x00, 0x00, 0x00, 0x00, 0x00,
   0x00, 0x00, 0x00, 0x00]

/-- The aggregation type the repository's own `tests::test_header` asserts
for the sample file: `assert_eq!(hdr.aggregation_type(),
header::AggregationType::Unknown)`. -/
def testHeaderAssertedAggregation : AggregationType := .Unknown

/-- Byte offset of archive descriptor `i` computed the way the spec
describes the layout: `archives_start(N)` plus the sizes of all finer
archives `j < i`. -/
def offsetAt (s : Schema) (i : Nat) : Nat :=
  Header.archives_start s.retention_policies.length + sumSizes (s.retention_policies.take i)

/-- On-disk size of archive `i` of a schema (0 past the end). -/
def sizeAt (s : Schema) (i : Nat) : Nat :=
  (s.retention_policies.map RetentionPolicy.size_on_disk).getD i 0

/-- A one-archive 60-second-per-point, five-point archive with an empty
(all-sentinel) 60-byte region, matching the sample file's descriptor. -/
def arch1 : Archive := ⟨60, 5, 28, List.replicate 60 0⟩

/-- A header matching `arch1`. -/
def hdr1 : Header := ⟨.Unknown, 300, f32HalfBits, [⟨28, 60, 5⟩]⟩

/-- A concrete `WhisperFile` with exactly one archive. -/
def fileOne : WhisperFile := ⟨hdr1, [arch1]⟩

/-- A 16-byte file whose header declares an archive count of zero. -/
def emptyArchHeaderBytes : List Nat :=
  be32 0 ++ be32 300 ++ be32 f32HalfBits ++ be32 0

/-- A two-tier schema, one minute of one-second points backed by an hour
of five-minute points (finest first, all §3 invariants satisfied). -/
def schema2 : Schema := ⟨[⟨60, 5⟩, ⟨300, 12⟩]⟩

end Whisper

namespace Whisper

theorem readU32_be32 (n : Nat) (rest : List Nat) :
    readU32 (be32 n ++ rest) = some (n % 2 ^ 32, rest) := by
  simp only [be32, List.cons_append, List.nil_append, readU32]
  congr 1
  ext
  · simp; omega
  · rfl

/-- C4: per the spec's format table, parsing the 88-byte sample file yields
aggregation type `Average` (id 1), max retention 300, x_files_factor bits
0x3F000000 (the IEEE-754 encoding of one half), and one archive with 60
seconds per point, 5 points and 60 bytes of data — whereas the
repository's own `tests::test_header` asserts `Unknown` for the same
bytes. -/
theorem sample_file_parses_per_format_table :
    Header.new_from_slice sampleFile =
      some ⟨AggregationType.Average, 300, f32HalfBits, [⟨28, 60, 5⟩]⟩
    ∧ decodeF32 f32HalfBits = some (1 / 2 : ℚ)
    ∧ (Header.new_from_slice sampleFile).map
        (fun h => (h.mmap_to_archives sampleFile).map
          fun a => (a.seconds_per_point, a.points, a.size)) = some [(60, 5, 60)]
    ∧ (Header.new_from_slice sampleFile).map Header.aggregation_type ≠
        some testHeaderAssertedAggregation :=
  ⟨by decide, by norm_num [decodeF32, f32HalfBits], by decide, by decide⟩

/-- C5: `WhisperFile::open` has no error return: a failed mmap is
unwrapped into a panic (modelled `none`), a file shorter than the 16-byte
preamble panics during parsing, and a 28-byte file whose header claims 88
bytes opens successfully with a zero-length archive region instead of
failing with a distinct error value. -/
theorem open_panics_instead_of_returning_error :
    WhisperFile.openFile none = none
    ∧ Header.new_from_slice (sampleFile.take 10) = none
    ∧ WhisperFile.openFile (some (sampleFile.take 28)) =
        some ⟨⟨.Average, 300, f32HalfBits, [⟨28, 60, 5⟩]⟩, [⟨60, 5, 28, []⟩]⟩ :=
  ⟨rfl, by decide, by decide⟩

/-- C7: when the OS-level `ftruncate` fails (nonzero return value),
`WhisperFile::new` returns the last OS error and constructs no
`WhisperFile`. -/
theorem new_errors_on_ftruncate_failure (old : List Nat) (s : Schema) (r : Int)
    (h : r ≠ 0) :
    WhisperFile.new old s r = .error .lastOsError
    ∧ ∀ res, WhisperFile.new old s r ≠ .ok res := by
  have he : WhisperFile.new old s r = .error .lastOsError := by
    simp [WhisperFile.new, h]
  exact ⟨he, fun res hres => by rw [he] at hres; exact Except.noConfusion hres⟩

/-- Witness for C7 at a concrete schema and `ftruncate` return value 1. -/
theorem new_errors_on_ftruncate_failure_witness :
    WhisperFile.new [] (Schema.mk [⟨60, 5⟩]) 1 = .error .lastOsError :=
  (new_errors_on_ftruncate_failure [] (Schema.mk [⟨60, 5⟩]) 1 (by decide)).1

/-- C8: `WhisperFile::write` delegates exactly to the first (finest)
archive's write: the resulting state replaces archive 0 by
`Archive::write`'s result and leaves every other archive untouched. -/
theorem write_delegates_to_first_archive (f : WhisperFile) (now : Nat) (p : Point)
    (a : Archive) (rest : List Archive) (h : f.archives = a :: rest) :
    WhisperFile.write now f p = some { f with archives := (Archive.write now a p).2 :: rest }
    ∧ ∀ i, i ≠ 0 →
        (WhisperFile.write now f p).map (fun g => g.archives[i]?) = some f.archives[i]? := by
  have hw : WhisperFile.write now f p =
      some { f with archives := (Archive.write now a p).2 :: rest } := by
    unfold WhisperFile.write
    rw [h]
  refine ⟨hw, fun i hi => ?_⟩
  rw [hw, h]
  cases i with
  | zero => exact absurd rfl hi
  | succ j => simp

/-- Witness for C8 at a concrete one-archive file. -/
theorem write_delegates_to_first_archive_witness :
    WhisperFile.write 1000 fileOne ⟨900, 3⟩ =
      some { fileOne with archives := [(Archive.write 1000 arch1 ⟨900, 3⟩).2] } :=
  (write_delegates_to_first_archive fileOne 1000 ⟨900, 3⟩ arch1 [] rfl).1

/-- C6 counterexample: the archive-level outcomes for a fresh point and a
too-old point differ (`accepted` vs `tooOld`), yet `WhisperFile::write`
returns the identical unit value for both calls — the outcomes are
conflated in its return shape. -/
theorem write_return_conflates_outcomes :
    (Archive.write 1000 arch1 ⟨900, 3⟩).1 = WriteOutcome.accepted
    ∧ (Archive.write 1000 arch1 ⟨600, 3⟩).1 = WriteOutcome.tooOld
    ∧ WhisperFile.writeReturn 1000 fileOne ⟨900, 3⟩ =
        WhisperFile.writeReturn 1000 fileOne ⟨600, 3⟩ :=
  ⟨by decide, by decide, by decide⟩

/-- C6 (amended): on any file with at least one archive,
`WhisperFile::write` returns plain unit whatever the archive-level outcome
— accepted, rejected-as-too-old and failed are not distinguishable from
its return value. -/
theorem write_returns_unit_unconditionally (now : Nat) (f : WhisperFile) (p : Point)
    (h : f.archives ≠ []) :
    WhisperFile.writeReturn now f p = some () := by
  cases hs : f.archives with
  | nil => exact absurd hs h
  | cons a rest => simp [WhisperFile.writeReturn, WhisperFile.write, hs]

/-- Witness for the amended C6 at a concrete file and a too-old point. -/
theorem write_returns_unit_unconditionally_witness :
    WhisperFile.writeReturn 1000 fileOne ⟨600, 3⟩ = some () :=
  write_returns_unit_unconditionally 1000 fileOne ⟨600, 3⟩ (by decide)

/-- C9: a file whose header declares zero archives opens into a
`WhisperFile` with an empty archive list; `WhisperFile::write` then panics
on the unguarded `archives[0]` index (modelled `none`), while it is total
on every file with a non-empty archive list. -/
theorem zero_archive_open_and_unguarded_write :
    WhisperFile.open_mmap emptyArchHeaderBytes =
      some ⟨⟨.Unknown, 300, f32HalfBits, []⟩, []⟩
    ∧ (∀ (f : WhisperFile) (now : Nat) (p : Point), f.archives = [] →
        WhisperFile.write now f p = none)
    ∧ ∀ (f : WhisperFile) (now : Nat) (p : Point), f.archives ≠ [] →
        (WhisperFile.write now f p).isSome = true := by
  refine ⟨by decide, fun f now p h => ?_, fun f now p h => ?_⟩
  · simp [WhisperFile.write, h]
  · cases hs : f.archives with
    | nil => exact absurd hs h
    | cons a rest => simp [WhisperFile.write, hs]

/-- Witness for C9: the zero-archive file panics on write, the one-archive
file does not. -/
theorem zero_archive_open_and_unguarded_write_witness :
    WhisperFile.write 0 ⟨⟨.Unknown, 300, f32HalfBits, []⟩, []⟩ ⟨900, 3⟩ = none
    ∧ (WhisperFile.write 0 fileOne ⟨900, 3⟩).isSome = true :=
  ⟨zero_archive_open_and_unguarded_write.2.1 ⟨⟨.Unknown, 300, f32HalfBits, []⟩, []⟩ 0 ⟨900, 3⟩ rfl,
   zero_archive_open_and_unguarded_write.2.2 fileOne 0 ⟨900, 3⟩ (by decide)⟩

theorem headerPreambleBytes_length (s : Schema) : (headerPreambleBytes s).length = 16 := by
  simp [headerPreambleBytes, be32]

theorem descBytes_length (ps : List RetentionPolicy) (off : Nat) :
    (descBytes ps off).length = 12 * ps.length := by
  induction ps generalizing off with
  | nil => simp [descBytes]
  | cons rp rest ih => simp [descBytes, be32, ih]; ring

theorem resize_length (old : List Nat) (n : Nat) : (resize old n).length = n := by
  simp [resize]; omega

theorem sumSizes_cons (rp : RetentionPolicy) (rest : List RetentionPolicy) :
    sumSizes (rp :: rest) = rp.size_on_disk + sumSizes rest := by
  simp [sumSizes]

theorem newBytes_length (old : List Nat) (s : Schema) :
    (WhisperFile.newBytes old s).length = s.size_on_disk := by
  simp [WhisperFile.newBytes, List.length_append, List.length_drop, resize_length,
    headerPreambleBytes_length, descBytes_length, Schema.size_on_disk,
    Header.archives_start, ARCHIVE_INFO_SIZE]
  omega

theorem descBytes_cons_drop12 (rp : RetentionPolicy) (rest : List RetentionPolicy)
    (off : Nat) (tail : List Nat) :
    (descBytes (rp :: rest) off ++ tail).drop 12 =
      descBytes rest ((off + rp.size_on_disk) % 2 ^ 32) ++ tail := by
  simp [descBytes, be32]

theorem readBE32At_drop (bs : List Nat) (m n : Nat) :
    readBE32At (bs.drop m) n = readBE32At bs (m + n) := by
  simp [readBE32At, List.drop_drop]

theorem descBytes_readAt (ps : List RetentionPolicy) (off : Nat) (tail : List Nat)
    (i : Nat) (hi : i < ps.length) (hb : off + sumSizes ps < 2 ^ 32) :
    readBE32At (descBytes ps off ++ tail) (12 * i) =
      some (off + sumSizes (ps.take i)) := by
  induction ps generalizing off i with
  | nil => simp at hi
  | cons rp rest ih =>
    rw [sumSizes_cons] at hb
    cases i with
    | zero =>
      have hoff : off % 2 ^ 32 = off := Nat.mod_eq_of_lt (by omega)
      simp only [Nat.mul_zero, readBE32At, List.drop_zero, descBytes, List.append_assoc,
        readU32_be32, Option.map_some, List.take_zero, sumSizes, List.map_nil,
        List.sum_nil, Nat.add_zero, hoff]
      rfl
    | succ j =>
      have h12 : 12 * (j + 1) = 12 + 12 * j := by ring
      have hmod : (off + rp.size_on_disk) % 2 ^ 32 = off + rp.size_on_disk :=
        Nat.mod_eq_of_lt (by omega)
      rw [h12, ← readBE32At_drop, descBytes_cons_drop12, ih _ _ (by simpa using hi)
        (by rw [hmod]; omega)]
      rw [hmod, List.take_succ_cons, sumSizes_cons]
      congr 1
      omega

theorem readInfos_descBytes (ps : List RetentionPolicy) (off : Nat) (tail : List Nat)
    (hb : off + sumSizes ps < 2 ^ 32)
    (hf : ∀ rp ∈ ps, rp.precision < 2 ^ 32 ∧ rp.points < 2 ^ 32) :
    readInfos (descBytes ps off ++ tail) ps.length = some (rows ps off) := by
  induction ps generalizing off with
  | nil => simp [descBytes, readInfos, rows]
  | cons rp rest ih =>
    rw [sumSizes_cons] at hb
    have hoff : off % 2 ^ 32 = off := Nat.mod_eq_of_lt (by omega)
    have hp : rp.precision % 2 ^ 32 = rp.precision :=
      Nat.mod_eq_of_lt (hf rp (List.mem_cons_self rp rest)).1
    have hq : rp.points % 2 ^ 32 = rp.points :=
      Nat.mod_eq_of_lt (hf rp (List.mem_cons_self rp rest)).2
    have hmod : (off + rp.size_on_disk) % 2 ^ 32 = off + rp.size_on_disk :=
      Nat.mod_eq_of_lt (by omega)
    simp only [descBytes, List.append_assoc, List.length_cons, readInfos, readU32_be32,
      Option.bind_eq_bind, Option.some_bind, hoff, hp, hq]
    rw [ih _ (by rw [hmod]; omega) (fun x hx => hf x (List.mem_cons_of_mem rp hx))]
    simp [rows]

theorem size_on_disk_eq (s : Schema) :
    s.size_on_disk = 16 + 12 * s.retention_policies.length + sumSizes s.retention_policies := by
  simp [Schema.size_on_disk, Header.archives_start, ARCHIVE_INFO_SIZE]

theorem archives_start_eq (n : Nat) : Header.archives_start n = 16 + 12 * n := rfl

theorem readBE32At_be32_skip (x k : Nat) (rest : List Nat) :
    readBE32At (be32 x ++ rest) (4 + k) = readBE32At rest k := by
  rw [← readBE32At_drop]
  congr 1

theorem sizeAt_eq (s : Schema) (i : Nat) (hi : i < s.retention_policies.length) :
    sizeAt s i = s.retention_policies[i].size_on_disk := by
  simp [sizeAt, List.getD_eq_getElem?_getD, List.getElem?_map, List.getElem?_eq_getElem hi]

/-- C3: parsing back the bytes `WhisperFile::new` just wrote, the way
`open_mmap` does via `Header::new_from_slice`, round-trips every header
field: aggregation type `Unknown`, the schema's max retention, the
x_files_factor bits of 0.5, and each archive descriptor exactly as the
write loop emitted it. -/
theorem header_roundtrips_through_parse (old : List Nat) (s : Schema) (hwf : s.WellFormed)
    (hfit : s.size_on_disk < 2 ^ 32) (hret : s.max_retention < 2 ^ 32) :
    Header.new_from_slice (WhisperFile.newBytes old s) =
      some ⟨.Unknown, s.max_retention, f32HalfBits,
        rows s.retention_policies (Header.archives_start s.retention_policies.length)⟩ := by
  have hsize := size_on_disk_eq s
  have ha := archives_start_eq s.retention_policies.length
  have hstart : Header.archives_start s.retention_policies.length % 2 ^ 32 =
      Header.archives_start s.retention_policies.length :=
    Nat.mod_eq_of_lt (by rw [ha]; omega)
  have hmr : s.max_retention % 2 ^ 32 = s.max_retention := Nat.mod_eq_of_lt hret
  have hNm : s.retention_policies.length % 2 ^ 32 = s.retention_policies.length :=
    Nat.mod_eq_of_lt (by omega)
  simp only [WhisperFile.newBytes, headerPreambleBytes, List.append_assoc,
    Header.new_from_slice, readU32_be32, Option.bind_eq_bind, Option.some_bind,
    hmr, hNm, show f32HalfBits % 2 ^ 32 = f32HalfBits from rfl]
  rw [readInfos_descBytes _ _ _ (by rw [hstart, ha]; omega)
    (fun rp hrp => ((hwf.2.2 rp hrp).2.2 : _))]
  simp only [hstart]
  rfl

/-- Witness for C3 on a concrete two-tier schema. -/
theorem header_roundtrips_through_parse_witness :
    Header.new_from_slice (WhisperFile.newBytes [] schema2) =
      some ⟨.Unknown, schema2.max_retention, f32HalfBits,
        rows schema2.retention_policies (Header.archives_start schema2.retention_policies.length)⟩ :=
  header_roundtrips_through_parse [] schema2 (by decide) (by decide) (by decide)

/-- C2: the 16-byte preamble `WhisperFile::new` writes carries, big-endian
at byte offsets 0, 4, 8 and 12: aggregation type `Unknown` (id 0), the
schema's `max_retention()`, the bits of `x_files_factor = 0.5`, and the
number of retention policies. -/
theorem new_header_fields (old : List Nat) (s : Schema)
    (hfit : s.size_on_disk < 2 ^ 32) (hret : s.max_retention < 2 ^ 32) :
    readBE32At (WhisperFile.newBytes old s) 0 = some (AggregationType.toU32 .Unknown)
    ∧ AggregationType.toU32 .Unknown = 0
    ∧ readBE32At (WhisperFile.newBytes old s) 4 = some s.max_retention
    ∧ readBE32At (WhisperFile.newBytes old s) 8 = some f32HalfBits
    ∧ decodeF32 f32HalfBits = some (1 / 2 : ℚ)
    ∧ readBE32At (WhisperFile.newBytes old s) 12 = some s.retention_policies.length := by
  have hsize := size_on_disk_eq s
  have hNm : s.retention_policies.length % 2 ^ 32 = s.retention_policies.length :=
    Nat.mod_eq_of_lt (by omega)
  refine ⟨?_, rfl, ?_, ?_, by norm_num [decodeF32, f32HalfBits], ?_⟩
  · simp only [WhisperFile.newBytes, headerPreambleBytes, List.append_assoc, readBE32At,
      List.drop_zero, readU32_be32, Option.map_some']
    rfl
  · simp only [WhisperFile.newBytes, headerPreambleBytes, List.append_assoc]
    show readBE32At _ (4 + 0) = _
    rw [readBE32At_be32_skip]
    simp only [readBE32At, List.drop_zero, readU32_be32, Option.map_some',
      Nat.mod_eq_of_lt hret]
  · simp only [WhisperFile.newBytes, headerPreambleBytes, List.append_assoc]
    show readBE32At _ (4 + (4 + 0)) = _
    rw [readBE32At_be32_skip, readBE32At_be32_skip]
    simp only [readBE32At, List.drop_zero, readU32_be32, Option.map_some']
    rfl
  · simp only [WhisperFile.newBytes, headerPreambleBytes, List.append_assoc]
    show readBE32At _ (4 + (4 + (4 + 0))) = _
    rw [readBE32At_be32_skip, readBE32At_be32_skip, readBE32At_be32_skip]
    simp only [readBE32At, List.drop_zero, readU32_be32, Option.map_some', hNm]

/-- Witness for C2 on a concrete two-tier schema: the max-retention field. -/
theorem new_header_fields_witness :
    readBE32At (WhisperFile.newBytes [] schema2) 4 = some schema2.max_retention :=
  (new_header_fields [] schema2 (by decide) (by decide)).2.2.1

/-- C1: `WhisperFile::new` lays the file out byte-exactly: the file is
sized to `schema.size_on_disk() = 16 + 12N + Σ points_i * 12`, descriptor
`i` carries the offset `archives_start(N)` plus the sizes of all finer
archives, and the archive offsets are strictly increasing with
non-overlapping regions. -/
theorem new_layout_is_byte_exact (old : List Nat) (s : Schema) (hwf : s.WellFormed)
    (hfit : s.size_on_disk < 2 ^ 32) :
    (WhisperFile.newBytes old s).length = s.size_on_disk
    ∧ s.size_on_disk = 16 + 12 * s.retention_policies.length + sumSizes s.retention_policies
    ∧ (∀ i, i < s.retention_policies.length →
        readBE32At (WhisperFile.newBytes old s) (16 + 12 * i) = some (offsetAt s i))
    ∧ ∀ i j, i < j → j < s.retention_policies.length →
        offsetAt s i + sizeAt s i ≤ offsetAt s j ∧ offsetAt s i < offsetAt s j := by
  have hsize := size_on_disk_eq s
  refine ⟨newBytes_length old s, hsize, ?_, ?_⟩
  · intro i hi
    have hstart : Header.archives_start s.retention_policies.length % 2 ^ 32 =
        Header.archives_start s.retention_policies.length :=
      Nat.mod_eq_of_lt (by rw [archives_start_eq]; omega)
    simp only [WhisperFile.newBytes, headerPreambleBytes, List.append_assoc]
    rw [show 16 + 12 * i = 4 + (4 + (4 + (4 + 12 * i))) by ring,
      readBE32At_be32_skip, readBE32At_be32_skip, readBE32At_be32_skip, readBE32At_be32_skip,
      descBytes_readAt _ _ _ i hi (by rw [hstart, archives_start_eq]; omega)]
    rw [hstart]
    rfl
  · intro i j hij hj
    have hi : i < s.retention_policies.length := hij.trans hj
    have h1 : sumSizes (s.retention_policies.take j) =
        sumSizes (s.retention_policies.take i) +
          sumSizes ((s.retention_policies.drop i).take (j - i)) := by
      conv_lhs => rw [show j = i + (j - i) by omega]
      rw [List.take_add]
      simp [sumSizes]
    have h2 : (s.retention_policies.drop i).take (j - i) =
        s.retention_policies[i] :: (s.retention_policies.drop (i + 1)).take (j - i - 1) := by
      rw [List.drop_eq_getElem_cons hi, show j - i = j - i - 1 + 1 by omega,
        List.take_succ_cons]
      simp
    have key : offsetAt s j = offsetAt s i + sizeAt s i +
        sumSizes ((s.retention_policies.drop (i + 1)).take (j - i - 1)) := by
      rw [offsetAt, offsetAt, h1, h2, sumSizes_cons, sizeAt_eq s i hi]
      ring
    have hpos : 0 < sizeAt s i := by
      rw [sizeAt_eq s i hi]
      obtain ⟨-, hpts, -, -⟩ := hwf.2.2 _ (List.getElem_mem hi)
      simp [RetentionPolicy.size_on_disk, POINT_SIZE]
      omega
    exact ⟨by omega, by omega⟩

/-- Witness for C1 on a concrete two-tier schema: descriptor 1's offset and
the non-overlap of archive 0 and archive 1. -/
theorem new_layout_is_byte_exact_witness :
    readBE32At (WhisperFile.newBytes [] schema2) (16 + 12 * 1) = some (offsetAt schema2 1)
    ∧ offsetAt schema2 0 + sizeAt schema2 0 ≤ offsetAt schema2 1 :=
  ⟨(new_layout_is_byte_exact [] schema2 (by decide) (by decide)).2.2.1 1 (by decide),
   ((new_layout_is_byte_exact [] schema2 (by decide) (by decide)).2.2.2 0 1
     (by decide) (by decide)).1⟩

/-- C10: `WhisperFile::new` on a path with prior content resizes the file
to exactly `schema.size_on_disk()` and writes only the first `16 + 12N`
bytes; every pre-existing byte of the archive data region that survives
the resize is left unchanged. -/
theorem new_preserves_surviving_data_bytes (old : List Nat) (s : Schema) (i : Nat)
    (h1 : 16 + 12 * s.retention_policies.length ≤ i)
    (h2 : i < old.length) (h3 : i < s.size_on_disk) :
    (WhisperFile.newBytes old s)[i]? = old[i]?
    ∧ (WhisperFile.newBytes old s).length = s.size_on_disk := by
  refine ⟨?_, newBytes_length old s⟩
  have hlen : (headerPreambleBytes s ++ descBytes s.retention_policies
      (Header.archives_start s.retention_policies.length % 2 ^ 32)).length =
      16 + 12 * s.retention_policies.length := by
    simp [List.length_append, headerPreambleBytes_length, descBytes_length]
  simp only [WhisperFile.newBytes]
  rw [List.getElem?_append_right (by rw [hlen]; omega), List.getElem?_drop, hlen]
  rw [show 16 + 12 * s.retention_policies.length +
      (i - (16 + 12 * s.retention_policies.length)) = i by omega]
  simp only [resize, List.getElem?_append, List.length_take]
  rw [if_pos (by omega), List.getElem?_take, if_pos h3]

/-- Witness for C10: byte 30 of a 100-byte file of sevens survives
`WhisperFile::new` with a one-archive schema (header 28 bytes, file
resized to 88). -/
theorem new_preserves_surviving_data_bytes_witness :
    (WhisperFile.newBytes (List.replicate 100 7) (Schema.mk [⟨60, 5⟩]))[30]? =
      (List.replicate 100 7)[30]? :=
  (new_preserves_surviving_data_bytes (List.replicate 100 7) (Schema.mk [⟨60, 5⟩]) 30
    (by decide) (by decide) (by decide)).1

end Whisper
